import Mathlib

/-!
Verification development for the Daft planner and numeric min/max/clip kernels.

The Rust sources embedded here are:
  * src/daft-core/src/array/ops/clip.rs   (DataArray min/max kernels)
  * src/daft-core/src/series/ops/clip.rs  (Series::binary_min / binary_max / clip)
  * src/daft-functions/src/numeric/clip.rs (BinaryMin / BinaryMax / Clip scalar UDFs)
  * src/daft-plan/src/planner.rs          (logical-to-physical planner)

Collaborator code that those files call but that lives outside the four files
(the dtype promotion lattice, casting, `binary_apply`, expression field
resolution, `semantic_id`, and the logical plan's `schema()`/`partition_spec()`
accessors) is modelled from the specification; each such definition carries a
doc comment starting with `Modelled from the spec:`.

Machine floats are embedded as `FloatVal` (NaN or an exact rational): the
claims under study only concern NaN behaviour and order comparisons, never
rounding, so an exact-value model with an explicit NaN is faithful.  Rust's
`f32::min`/`f32::max` (IEEE-754 minNum/maxNum: a single NaN operand is
ignored and the other operand returned) are embedded as `fmin`/`fmax`.
-/

namespace Daft

/-- The runtime dtype tag.  The ten numeric variants are the ones the
kernels dispatch on; `boolean`, `utf8` and `null` stand for the non-numeric
dtypes that numeric kernels must reject. -/
inductive DataType where
  | int8 | int16 | int32 | int64
  | uint8 | uint16 | uint32 | uint64
  | float32 | float64
  | boolean | utf8 | null
deriving DecidableEq, Fintype

/-- Rust `Debug`-style rendering of a dtype, used inside error messages. -/
def DataType.fmt : DataType → String
  | .int8 => "Int8" | .int16 => "Int16" | .int32 => "Int32" | .int64 => "Int64"
  | .uint8 => "UInt8" | .uint16 => "UInt16" | .uint32 => "UInt32" | .uint64 => "UInt64"
  | .float32 => "Float32" | .float64 => "Float64"
  | .boolean => "Boolean" | .utf8 => "Utf8" | .null => "Null"

/-- `DataType::is_numeric`: true exactly on the ten numeric dtypes. -/
def DataType.is_numeric : DataType → Bool
  | .int8 | .int16 | .int32 | .int64 => true
  | .uint8 | .uint16 | .uint32 | .uint64 => true
  | .float32 | .float64 => true
  | _ => false

/-- True on the two float dtypes. -/
def DataType.isFloat : DataType → Bool
  | .float32 | .float64 => true
  | _ => false

/-- Bit width of an integer dtype (0 for non-integers). -/
def DataType.width : DataType → Nat
  | .int8 | .uint8 => 8
  | .int16 | .uint16 => 16
  | .int32 | .uint32 => 32
  | .int64 | .uint64 => 64
  | _ => 0

/-- True on the signed integer dtypes. -/
def DataType.isSignedInt : DataType → Bool
  | .int8 | .int16 | .int32 | .int64 => true
  | _ => false

/-- True on the unsigned integer dtypes. -/
def DataType.isUnsignedInt : DataType → Bool
  | .uint8 | .uint16 | .uint32 | .uint64 => true
  | _ => false

/-- The error taxonomy exposed at the boundary (`common_error::DaftError`). -/
inductive DaftError where
  | schemaMismatch (msg : String)
  | typeError (msg : String)
  | valueError (msg : String)
  | shapeMismatch (msg : String)
  | fieldNotFound (msg : String)
  | notImplemented (msg : String)
deriving DecidableEq

/-- Signed integer dtype of a given width (saturating at 64 bits). -/
def signedOfWidth : Nat → DataType
  | 8 => .int8
  | 16 => .int16
  | 32 => .int32
  | _ => .int64

/-- Unsigned integer dtype of a given width (saturating at 64 bits). -/
def unsignedOfWidth : Nat → DataType
  | 8 => .uint8
  | 16 => .uint16
  | 32 => .uint32
  | _ => .uint64

/-- Width of the narrowest signed integer dtype strictly containing an
unsigned dtype of width `w`, saturating at 64 bits. -/
def nextWiderSignedWidth : Nat → Nat
  | 8 => 16
  | 16 => 32
  | _ => 64

/-- Modelled from the spec: the numeric promotion lattice (the result
component of `InferDataType::comparison_op`, which lives in daft-core outside
the four source files).  Any float dominates any integer; among integers the
result is the narrowest dtype containing both ranges, promoting to signed
when signedness is mixed, saturating at 64 bits. -/
def promoted (a b : DataType) : DataType :=
  if a = .float64 ∨ b = .float64 then .float64
  else if a = .float32 ∨ b = .float32 then .float32
  else
    let w := max a.width b.width
    if a.isUnsignedInt && b.isUnsignedInt then unsignedOfWidth w
    else if a.isSignedInt && b.isSignedInt then signedOfWidth w
    else
      let wu := if a.isUnsignedInt then a.width else b.width
      signedOfWidth (max w (nextWiderSignedWidth wu))

/-- Modelled from the spec: `InferDataType::comparison_op` (daft-core, outside
the four source files).  Total on numeric times numeric, returning the triple
`(lhs_cast, rhs_cast, result)`; fails with a type error when either operand is
non-numeric.  Only the third component is consumed by the code under study. -/
def comparison_op (a b : DataType) : Except DaftError (DataType × DataType × DataType) :=
  if a.is_numeric && b.is_numeric then
    let r := promoted a b
    .ok (r, r, r)
  else
    .error (.typeError ("Cannot perform comparison on types: " ++ a.fmt ++ ", " ++ b.fmt))

/-- A machine float, embedded exactly: NaN or a rational value.  Signed
zeros and infinities are not distinguished; no claim under study touches
them. -/
inductive FloatVal where
  | nan
  | fin (q : ℚ)
deriving DecidableEq

/-- Rust `f32::min` / `f64::min` (IEEE-754 minNum): if exactly one operand is
NaN the other operand is returned; NaN results only when both are NaN. -/
def fmin : FloatVal → FloatVal → FloatVal
  | .nan, r => r
  | .fin a, .nan => .fin a
  | .fin a, .fin b => .fin (min a b)

/-- Rust `f32::max` / `f64::max` (IEEE-754 maxNum): if exactly one operand is
NaN the other operand is returned; NaN results only when both are NaN. -/
def fmax : FloatVal → FloatVal → FloatVal
  | .nan, r => r
  | .fin a, .nan => .fin a
  | .fin a, .fin b => .fin (max a b)

/-- A native scalar value held by a numeric typed array: an integer or a
float. -/
inductive NumVal where
  | int (z : ℤ)
  | flt (f : FloatVal)
deriving DecidableEq

/-- The rational magnitude of a value (0 for NaN, which is excluded by
hypothesis wherever this matters). -/
def NumVal.toRat : NumVal → ℚ
  | .int z => (z : ℚ)
  | .flt (.fin q) => q
  | .flt .nan => 0

/-- A value is NaN. -/
def NumVal.isNaN : NumVal → Bool
  | .flt .nan => true
  | _ => false

/-- A value's tag is consistent with a dtype: float dtypes hold `flt`
values, integer dtypes hold `int` values. -/
def tagMatches (dt : DataType) : NumVal → Bool
  | .int _ => !dt.isFloat
  | .flt _ => dt.isFloat

/-- Modelled from the spec: casting one native value to a target numeric
dtype.  The lattice only ever prescribes widening casts, so the cast is the
exact value embedding: integers stay integral for integer targets and become
exact rationals for float targets; floats (including NaN) are unchanged.
(The source's `Series::cast` lives in daft-core outside the four files.) -/
def castVal (dt : DataType) (v : NumVal) : NumVal :=
  if dt.isFloat then
    match v with
    | .int z => .flt (.fin (z : ℚ))
    | .flt f => .flt f
  else v

/-- Per-slot lifting of a kernel to nullable slots: the result slot is
valid iff both input slots are valid. -/
def applySlot (f : α → α → α) : Option α → Option α → Option α
  | some x, some y => some (f x y)
  | _, _ => none

/-- Modelled from the spec: `DataArray::binary_apply` (daft-core, outside the
four source files).  Element-wise application over two equal-length columns
with validity masks, lifted slot-wise by `applySlot`; differing lengths are a
shape-mismatch error; no broadcasting. -/
def binaryApply (l r : List (Option α)) (f : α → α → α) :
    Except DaftError (List (Option α)) :=
  if l.length = r.length then
    .ok (List.zipWith (applySlot f) l r)
  else
    .error (.shapeMismatch "trying to operate on arrays of different lengths")

/-- `impl DataArray<Float32Type> { fn min }`: `binary_apply(rhs, |l, r| l.min(r))`,
where `l.min(r)` is Rust `f32::min`. -/
def DataArrayF32.min (l r : List (Option FloatVal)) :
    Except DaftError (List (Option FloatVal)) :=
  binaryApply l r fmin

/-- `impl DataArray<Float32Type> { fn max }`: `binary_apply(rhs, |l, r| l.max(r))`,
where `l.max(r)` is Rust `f32::max`. -/
def DataArrayF32.max (l r : List (Option FloatVal)) :
    Except DaftError (List (Option FloatVal)) :=
  binaryApply l r fmax

/-- `impl DataArray<Float64Type> { fn min }`: identical body to the
`Float32Type` impl, monomorphised at `f64`. -/
def DataArrayF64.min (l r : List (Option FloatVal)) :
    Except DaftError (List (Option FloatVal)) :=
  binaryApply l r fmin

/-- `impl DataArray<Float64Type> { fn max }`: identical body to the
`Float32Type` impl, monomorphised at `f64`. -/
def DataArrayF64.max (l r : List (Option FloatVal)) :
    Except DaftError (List (Option FloatVal)) :=
  binaryApply l r fmax

/-- A series: a named column of one dtype with a validity mask (a `none`
slot is null). -/
structure Series where
  name : String
  dtype : DataType
  values : List (Option NumVal)
deriving DecidableEq

/-- Well-formedness of a numeric series: the dtype is numeric and every
valid slot's tag matches the dtype. -/
def Series.wfNumeric (s : Series) : Prop :=
  s.dtype.is_numeric = true ∧
    (s.values.all fun o =>
      match o with
      | none => true
      | some v => tagMatches s.dtype v) = true

instance (s : Series) : Decidable s.wfNumeric := by
  unfold Series.wfNumeric; infer_instance

/-- Modelled from the spec: `Series::cast` to a numeric dtype (daft-core,
outside the four source files).  Casting preserves the name and the validity
mask and maps each valid value by `castVal`; the lattice only requests
widening numeric casts, which always succeed. -/
def Series.cast (s : Series) (dt : DataType) : Series :=
  ⟨s.name, dt, s.values.map (Option.map (castVal dt))⟩

/-- The per-slot kernel the monomorphised `DataArray::min` impls compute,
value-directed: integer slots use total-order `min`, float slots use Rust
float `min` (`fmin`).  The mixed-tag arm is unreachable for homogeneous
arrays and returns the left operand. -/
def kernelMin : NumVal → NumVal → NumVal
  | .int a, .int b => .int (Min.min a b)
  | .flt a, .flt b => .flt (fmin a b)
  | a, _ => a

/-- The per-slot kernel the monomorphised `DataArray::max` impls compute. -/
def kernelMax : NumVal → NumVal → NumVal
  | .int a, .int b => .int (Max.max a b)
  | .flt a, .flt b => .flt (fmax a b)
  | a, _ => a

/-- `Series::binary_min`: infer the output dtype via `comparison_op`, then on
each of the ten numeric dtypes cast both operands and run the dtype's
`DataArray::min` kernel (`binary_apply` with the slot kernel), keeping the
left operand's name; any other output dtype is a type error. -/
def Series.binary_min (s rhs : Series) : Except DaftError Series :=
  match comparison_op s.dtype rhs.dtype with
  | .error e => .error e
  | .ok (_, _, outputType) =>
    match outputType with
    | .int8 | .int16 | .int32 | .int64
    | .uint8 | .uint16 | .uint32 | .uint64
    | .float32 | .float64 =>
      let lhsCasted := s.cast outputType
      let rhsCasted := rhs.cast outputType
      match binaryApply lhsCasted.values rhsCasted.values kernelMin with
      | .ok vals => .ok ⟨lhsCasted.name, outputType, vals⟩
      | .error e => .error e
    | dt => .error (.typeError ("min not implemented for " ++ dt.fmt))

/-- `Series::binary_max`: same dispatch as `binary_min` with the `max`
kernels. -/
def Series.binary_max (s rhs : Series) : Except DaftError Series :=
  match comparison_op s.dtype rhs.dtype with
  | .error e => .error e
  | .ok (_, _, outputType) =>
    match outputType with
    | .int8 | .int16 | .int32 | .int64
    | .uint8 | .uint16 | .uint32 | .uint64
    | .float32 | .float64 =>
      let lhsCasted := s.cast outputType
      let rhsCasted := rhs.cast outputType
      match binaryApply lhsCasted.values rhsCasted.values kernelMax with
      | .ok vals => .ok ⟨lhsCasted.name, outputType, vals⟩
      | .error e => .error e
    | dt => .error (.typeError ("max not implemented for " ++ dt.fmt))

/-- `Series::clip`: `self.binary_max(min)?.binary_min(max)` — numpy
semantics, with no validation that `min ≤ max`. -/
def Series.clip (s mn mx : Series) : Except DaftError Series :=
  match s.binary_max mn with
  | .ok m => m.binary_min mx
  | .error e => .error e

/-- A `(name, dtype)` pair. -/
structure Field where
  name : String
  dtype : DataType
deriving DecidableEq

/-- An ordered sequence of fields (names are unique by construction
upstream; the code under study only reads them in order). -/
structure Schema where
  fields : List Field
deriving DecidableEq

/-- Modelled from the spec: `Schema::get_field` by name (daft-core, outside
the four source files). -/
def Schema.get_field (s : Schema) (n : String) : Except DaftError Field :=
  match s.fields.find? (fun f => f.name = n) with
  | some f => .ok f
  | none => .error (.fieldNotFound ("Column not found: " ++ n))

/-- The fragment of `daft_dsl::Expr` the four source files construct and
consume: column references and aliases. -/
inductive Expr where
  | column (name : String)
  | alias (e : Expr) (name : String)
deriving DecidableEq

/-- Modelled from the spec: `Expr::to_field` (daft-dsl, outside the four
source files): a column reference resolves through the schema; an alias
renames the child's field. -/
def Expr.to_field : Expr → Schema → Except DaftError Field
  | .column n, s => s.get_field n
  | .alias e n, s =>
    match e.to_field s with
    | .ok f => .ok ⟨n, f.dtype⟩
    | .error err => .error err

/-- Modelled from the spec: an expression's output name (daft-dsl, outside
the four source files): the alias name, or the referenced column's name. -/
def Expr.outName : Expr → String
  | .column n => n
  | .alias _ n => n

/-- Modelled from the spec: `Expr::semantic_id` — a deterministic structural
identifier of an expression (daft-dsl, outside the four source files).
Rendered as a canonical textual encoding of the tree, which is a
deterministic stable function of the expression's structure. -/
def Expr.semanticId : Expr → String
  | .column n => "col(" ++ n ++ ")"
  | .alias e n => "alias(" ++ e.semanticId ++ "," ++ n ++ ")"

/-- `daft_dsl::AggExpr`: an aggregation wrapper over an inner expression. -/
inductive AggExpr where
  | count (e : Expr)
  | sum (e : Expr)
  | mean (e : Expr)
  | min (e : Expr)
  | max (e : Expr)
  | list (e : Expr)
  | concat (e : Expr)
deriving DecidableEq

/-- The inner expression of an aggregation. -/
def AggExpr.inner : AggExpr → Expr
  | .count e | .sum e | .mean e | .min e | .max e | .list e | .concat e => e

/-- The aggregation kind, as a tag (used to say "same kind" precisely). -/
inductive AggKind where
  | count | sum | mean | min | max | list | concat
deriving DecidableEq

/-- The kind tag of an aggregation. -/
def AggExpr.kind : AggExpr → AggKind
  | .count _ => .count
  | .sum _ => .sum
  | .mean _ => .mean
  | .min _ => .min
  | .max _ => .max
  | .list _ => .list
  | .concat _ => .concat

/-- Rebuild an aggregation of the same kind as `a` over a new inner
expression. -/
def AggExpr.sameKindWith (a : AggExpr) (e : Expr) : AggExpr :=
  match a with
  | .count _ => .count e
  | .sum _ => .sum e
  | .mean _ => .mean e
  | .min _ => .min e
  | .max _ => .max e
  | .list _ => .list e
  | .concat _ => .concat e

/-- Modelled from the spec: `AggExpr::semantic_id(schema)` (daft-dsl, outside
the four source files): a deterministic structural identifier of the
aggregation, used as the intermediate column name across the shuffle
boundary.  The schema argument is kept for signature fidelity; the encoding
here is purely structural, which satisfies the spec's determinism
requirement. -/
def AggExpr.semanticId (a : AggExpr) (_s : Schema) : String :=
  match a with
  | .count e => "local_count(" ++ e.semanticId ++ ")"
  | .sum e => "local_sum(" ++ e.semanticId ++ ")"
  | .mean e => "local_mean(" ++ e.semanticId ++ ")"
  | .min e => "local_min(" ++ e.semanticId ++ ")"
  | .max e => "local_max(" ++ e.semanticId ++ ")"
  | .list e => "local_list(" ++ e.semanticId ++ ")"
  | .concat e => "local_concat(" ++ e.semanticId ++ ")"

/-- `BinaryMin::to_field`: arity 2 (schema mismatch otherwise), resolve both
inputs, require numeric dtypes (type error otherwise), and return the left
input's name with the lattice output dtype. -/
def BinaryMin.to_field (inputs : List Expr) (schema : Schema) : Except DaftError Field :=
  match inputs with
  | [lhs, rhs] =>
    match lhs.to_field schema with
    | .error e => .error e
    | .ok lhsField =>
      match rhs.to_field schema with
      | .error e => .error e
      | .ok rhsField =>
        if !lhsField.dtype.is_numeric || !rhsField.dtype.is_numeric then
          .error (.typeError ("All inputs to 'binary_min' must be numeric types, got "
            ++ lhsField.dtype.fmt ++ " and " ++ rhsField.dtype.fmt))
        else
          match comparison_op lhsField.dtype rhsField.dtype with
          | .error e => .error e
          | .ok (_, _, outputType) => .ok ⟨lhsField.name, outputType⟩
  | _ =>
    .error (.schemaMismatch ("Expected 2 input arguments for 'binary_min', got "
      ++ toString inputs.length))

/-- `BinaryMin::evaluate`: arity 2 (value error otherwise), then delegate to
`Series::binary_min`. -/
def BinaryMin.evaluate (inputs : List Series) : Except DaftError Series :=
  match inputs with
  | [lhs, rhs] => lhs.binary_min rhs
  | _ =>
    .error (.valueError ("Expected 2 input arguments for 'binary_min', got "
      ++ toString inputs.length))

/-- `BinaryMax::to_field`: identical shape to `BinaryMin::to_field`. -/
def BinaryMax.to_field (inputs : List Expr) (schema : Schema) : Except DaftError Field :=
  match inputs with
  | [lhs, rhs] =>
    match lhs.to_field schema with
    | .error e => .error e
    | .ok lhsField =>
      match rhs.to_field schema with
      | .error e => .error e
      | .ok rhsField =>
        if !lhsField.dtype.is_numeric || !rhsField.dtype.is_numeric then
          .error (.typeError ("All inputs to 'binary_max' must be numeric types, got "
            ++ lhsField.dtype.fmt ++ " and " ++ rhsField.dtype.fmt))
        else
          match comparison_op lhsField.dtype rhsField.dtype with
          | .error e => .error e
          | .ok (_, _, outputType) => .ok ⟨lhsField.name, outputType⟩
  | _ =>
    .error (.schemaMismatch ("Expected 2 input arguments for 'binary_max', got "
      ++ toString inputs.length))

/-- `BinaryMax::evaluate`: arity 2 (value error otherwise), then delegate to
`Series::binary_max`. -/
def BinaryMax.evaluate (inputs : List Series) : Except DaftError Series :=
  match inputs with
  | [lhs, rhs] => lhs.binary_max rhs
  | _ =>
    .error (.valueError ("Expected 2 input arguments for 'binary_max', got "
      ++ toString inputs.length))

/-- `Clip::to_field`: arity 3 (schema mismatch otherwise), resolve all three
inputs, require numeric dtypes (type error otherwise), and compute the
output dtype as `comparison_op(max, comparison_op(array, min))`, named after
the array input. -/
def Clip.to_field (inputs : List Expr) (schema : Schema) : Except DaftError Field :=
  match inputs with
  | [arr, mn, mx] =>
    match arr.to_field schema with
    | .error e => .error e
    | .ok arrayField =>
      match mn.to_field schema with
      | .error e => .error e
      | .ok minField =>
        match mx.to_field schema with
        | .error e => .error e
        | .ok maxField =>
          if !arrayField.dtype.is_numeric || !minField.dtype.is_numeric
              || !maxField.dtype.is_numeric then
            .error (.typeError ("All inputs to 'clip' must be numeric types, got "
              ++ arrayField.dtype.fmt ++ ", " ++ minField.dtype.fmt ++ ", "
              ++ maxField.dtype.fmt))
          else
            match comparison_op arrayField.dtype minField.dtype with
            | .error e => .error e
            | .ok (_, _, intermediateType) =>
              match comparison_op maxField.dtype intermediateType with
              | .error e => .error e
              | .ok (_, _, outputType) => .ok ⟨arrayField.name, outputType⟩
  | _ =>
    .error (.schemaMismatch ("Expected 3 input arguments (array, min, max), got "
      ++ toString inputs.length))

/-- `Clip::evaluate`: arity 3 (value error otherwise), then delegate to
`Series::clip`. -/
def Clip.evaluate (inputs : List Series) : Except DaftError Series :=
  match inputs with
  | [arr, mn, mx] => arr.clip mn mx
  | _ =>
    .error (.valueError ("Expected 3 input arguments (array, min, max), got "
      ++ toString inputs.length))

/-- `crate::PartitionScheme`. -/
inductive PartitionScheme where
  | unknown | random | hash | range
deriving DecidableEq

/-- `crate::PartitionSpec`: output distribution of a logical node. -/
structure PartitionSpec where
  num_partitions : Nat
  scheme : PartitionScheme
  partition_by : List Expr
deriving DecidableEq

/-- `crate::source_info::FileFormatConfig`; the per-format payloads are
opaque to the planner and elided. -/
inductive FileFormatConfig where
  | parquet | csv | json
deriving DecidableEq

/-- `crate::source_info::ExternalInfo`; only the file format config is
inspected by the planner, the remaining payload is opaque. -/
structure ExternalInfo where
  fileFormatConfig : FileFormatConfig
deriving DecidableEq

/-- An in-memory source handle, opaque to the planner. -/
structure MemInfo where
  cacheKey : String
deriving DecidableEq

/-- `crate::source_info::SourceInfo`. -/
inductive SourceInfo where
  | externalInfo (ext : ExternalInfo)
  | inMemoryInfo (mem : MemInfo)
deriving DecidableEq

/-- `crate::logical_plan::LogicalPlan`, restricted to the variants the
planner handles.  Constructor argument order follows the source structs. -/
inductive LogicalPlan where
  | source (schema : Schema) (sourceInfo : SourceInfo) (partitionSpec : PartitionSpec)
      (limit : Option Nat) (filters : List Expr)
  | filter (input : LogicalPlan) (predicate : Expr)
  | limit (input : LogicalPlan) (n : Nat)
  | sort (input : LogicalPlan) (sortBy : List Expr) (descending : List Bool)
  | repartition (input : LogicalPlan) (numPartitions : Nat) (partitionBy : List Expr)
      (scheme : PartitionScheme)
  | distinct (input : LogicalPlan)
  | aggregate (aggregations : List AggExpr) (groupBy : List Expr) (input : LogicalPlan)
deriving DecidableEq

/-- Modelled from the spec: `LogicalPlan::partition_spec` (logical_plan.rs,
outside the four source files): the spec that will hold of the node's
output.  A source reports its stored spec; a repartition reports the
requested spec; every other variant passes its input's spec through (the
planner only ever reads `num_partitions` from it). -/
def LogicalPlan.partitionSpec : LogicalPlan → PartitionSpec
  | .source _ _ ps _ _ => ps
  | .filter i _ => i.partitionSpec
  | .limit i _ => i.partitionSpec
  | .sort i _ _ => i.partitionSpec
  | .repartition _ n by_ scheme => ⟨n, scheme, by_⟩
  | .distinct i => i.partitionSpec
  | .aggregate _ _ i => i.partitionSpec

/-- Modelled from the spec: the schema of an `Aggregate` node — one field
per aggregation, named by the aggregation's output name (its inner
expression's name), with duplicate names collapsed because a schema's names
are unique (first occurrence keeps its position).  Field dtypes are not
consumed by the planner and are modelled as `null`. -/
def aggSchema (aggs : List AggExpr) : Schema :=
  ⟨aggs.foldl
    (fun acc a =>
      if acc.any (fun f => f.name = a.inner.outName) then acc
      else acc ++ [⟨a.inner.outName, .null⟩])
    []⟩

/-- Modelled from the spec: `LogicalPlan::schema` (logical_plan.rs, outside
the four source files).  A source reports its stored schema; filter, limit,
sort, repartition and distinct preserve their input's schema; an aggregate's
schema is derived from its aggregation list. -/
def LogicalPlan.schema : LogicalPlan → Schema
  | .source sch _ _ _ _ => sch
  | .filter i _ => i.schema
  | .limit i _ => i.schema
  | .sort i _ _ => i.schema
  | .repartition i _ _ _ => i.schema
  | .distinct i => i.schema
  | .aggregate aggs _ _ => aggSchema aggs

/-- `crate::physical_plan::PhysicalPlan`.  Constructor argument order
follows the `new` constructors invoked by the planner. -/
inductive PhysicalPlan where
  | tabularScanParquet (schema : Schema) (ext : ExternalInfo) (partitionSpec : PartitionSpec)
      (limit : Option Nat) (filters : List Expr)
  | tabularScanCsv (schema : Schema) (ext : ExternalInfo) (partitionSpec : PartitionSpec)
      (limit : Option Nat) (filters : List Expr)
  | tabularScanJson (schema : Schema) (ext : ExternalInfo) (partitionSpec : PartitionSpec)
      (limit : Option Nat) (filters : List Expr)
  | inMemoryScan (schema : Schema) (mem : MemInfo) (partitionSpec : PartitionSpec)
  | filter (predicate : Expr) (input : PhysicalPlan)
  | limit (n : Nat) (numPartitions : Nat) (input : PhysicalPlan)
  | sort (sortBy : List Expr) (descending : List Bool) (numPartitions : Nat)
      (input : PhysicalPlan)
  | split (inParts : Nat) (outParts : Nat) (input : PhysicalPlan)
  | fanoutRandom (outParts : Nat) (input : PhysicalPlan)
  | fanoutByHash (outParts : Nat) (partitionBy : List Expr) (input : PhysicalPlan)
  | reduceMerge (input : PhysicalPlan)
  | aggregate (input : PhysicalPlan) (aggregations : List AggExpr) (groupBy : List Expr)
  | coalesce (input : PhysicalPlan) (inParts : Nat) (outParts : Nat)
deriving DecidableEq

/-- Outcome of a call to `plan`.  The Rust signature is
`DaftResult<PhysicalPlan>`, so `ok` and `err` are the returned values; the
source additionally aborts through the `unreachable!` / `unimplemented!`
macros, which never return to the caller — that control flow is the
distinct `panicked` outcome (it is not an error value). -/
inductive PlanResult where
  | ok (p : PhysicalPlan)
  | err (e : DaftError)
  | panicked (msg : String)
deriving DecidableEq

/-- The returned-value test: true exactly on the `err` outcome. -/
def PlanResult.isErr : PlanResult → Bool
  | .err _ => true
  | _ => false

/-- True exactly on the `ok` outcome. -/
def PlanResult.isOk : PlanResult → Bool
  | .ok _ => true
  | _ => false

/-- The first-stage aggregation list of the multi-partition global
aggregation: the same kind applied to the original inner expression aliased
to the aggregation's semantic id. -/
def firstStageAggs (aggregations : List AggExpr) (schema : Schema) : List AggExpr :=
  (aggregations.zip (aggregations.map (fun a => a.semanticId schema))).map
    (fun p =>
      match p.1 with
      | .count e => .count (.alias e p.2)
      | .sum e => .sum (.alias e p.2)
      | .mean e => .mean (.alias e p.2)
      | .min e => .min (.alias e p.2)
      | .max e => .max (.alias e p.2)
      | .list e => .list (.alias e p.2)
      | .concat e => .concat (.alias e p.2))

/-- The second-stage aggregation list: intermediate names zipped with the
schema's field names zipped with the original aggregations, each lowered to
the same kind over a column reference to the intermediate name, aliased back
to the schema name. -/
def secondStageAggs (aggregations : List AggExpr) (schema : Schema) : List AggExpr :=
  (((aggregations.map (fun a => a.semanticId schema)).zip
      (schema.fields.map Field.name)).zip aggregations).map
    (fun p =>
      let fieldId := p.1.1
      let originalName := p.1.2
      match p.2 with
      | .count _ => .count (.alias (.column fieldId) originalName)
      | .sum _ => .sum (.alias (.column fieldId) originalName)
      | .mean _ => .mean (.alias (.column fieldId) originalName)
      | .min _ => .min (.alias (.column fieldId) originalName)
      | .max _ => .max (.alias (.column fieldId) originalName)
      | .list _ => .list (.alias (.column fieldId) originalName)
      | .concat _ => .concat (.alias (.column fieldId) originalName))

/-- The planner: `pub fn plan(logical_plan: &LogicalPlan) -> DaftResult<PhysicalPlan>`.
The `unreachable!` (Range repartition) and `unimplemented!` (non-empty
group-by) macro invocations are the `panicked` outcomes. -/
def plan : LogicalPlan → PlanResult
  | .source schema sourceInfo partitionSpec limit filters =>
    match sourceInfo with
    | .externalInfo ext =>
      match ext.fileFormatConfig with
      | .parquet => .ok (.tabularScanParquet schema ext partitionSpec limit filters)
      | .csv => .ok (.tabularScanCsv schema ext partitionSpec limit filters)
      | .json => .ok (.tabularScanJson schema ext partitionSpec limit filters)
    | .inMemoryInfo mem => .ok (.inMemoryScan schema mem partitionSpec)
  | .filter input predicate =>
    match plan input with
    | .ok inputPhysical => .ok (.filter predicate inputPhysical)
    | r => r
  | .limit input n =>
    match plan input with
    | .ok inputPhysical =>
      -- logical_plan.partition_spec() on the Limit node: its input's spec.
      .ok (.limit n input.partitionSpec.num_partitions inputPhysical)
    | r => r
  | .sort input sortBy descending =>
    match plan input with
    | .ok inputPhysical =>
      .ok (.sort sortBy descending input.partitionSpec.num_partitions inputPhysical)
    | r => r
  | .repartition input numPartitions partitionBy scheme =>
    match plan input with
    | .ok inputPhysical =>
      match scheme with
      | .unknown =>
        .ok (.split input.partitionSpec.num_partitions numPartitions inputPhysical)
      | .random =>
        .ok (.reduceMerge (.fanoutRandom numPartitions inputPhysical))
      | .hash =>
        .ok (.reduceMerge (.fanoutByHash numPartitions partitionBy inputPhysical))
      | .range => .panicked "Repartitioning by range is not supported"
    | r => r
  | .distinct input =>
    match plan input with
    | .ok inputPhysical =>
      let colExprs := input.schema.fields.map (fun f => Expr.column f.name)
      let aggOp := PhysicalPlan.aggregate inputPhysical [] colExprs
      -- logical_plan.partition_spec() on the Distinct node: its input's spec.
      let numPartitions := input.partitionSpec.num_partitions
      if numPartitions > 1 then
        .ok (.aggregate
          (.reduceMerge (.fanoutByHash numPartitions colExprs aggOp)) [] colExprs)
      else
        .ok aggOp
    | r => r
  | .aggregate aggregations groupBy input =>
    match plan input with
    | .ok inputPhysical =>
      if groupBy.isEmpty then
        -- logical_plan.partition_spec() on the Aggregate node: its input's spec.
        match input.partitionSpec.num_partitions with
        | 1 => .ok (.aggregate inputPhysical aggregations [])
        | numInputPartitions =>
          let schema := aggSchema aggregations
          .ok (.aggregate
            (.coalesce
              (.aggregate inputPhysical (firstStageAggs aggregations schema) [])
              numInputPartitions 1)
            (secondStageAggs aggregations schema) [])
      else
        .panicked ("not implemented: aggregation with non-empty group_by")
    | r => r

/-- Every `fanoutRandom` / `fanoutByHash` node in the tree is the immediate
child of a `reduceMerge` node. -/
def fanoutsPaired : PhysicalPlan → Bool
  | .tabularScanParquet _ _ _ _ _ => true
  | .tabularScanCsv _ _ _ _ _ => true
  | .tabularScanJson _ _ _ _ _ => true
  | .inMemoryScan _ _ _ => true
  | .filter _ i => fanoutsPaired i
  | .limit _ _ i => fanoutsPaired i
  | .sort _ _ _ i => fanoutsPaired i
  | .split _ _ i => fanoutsPaired i
  | .fanoutRandom _ _ => false
  | .fanoutByHash _ _ _ => false
  | .reduceMerge (.fanoutRandom _ i) => fanoutsPaired i
  | .reduceMerge (.fanoutByHash _ _ i) => fanoutsPaired i
  | .reduceMerge i => fanoutsPaired i
  | .aggregate i _ _ => fanoutsPaired i
  | .coalesce i _ _ => fanoutsPaired i

/-- A one-column Int64 schema used by the concrete scenarios. -/
def xInt64Schema : Schema := ⟨[⟨"x", .int64⟩]⟩

/-- A Parquet external source descriptor used by the concrete scenarios. -/
def parquetInfo : ExternalInfo := ⟨.parquet⟩

/-- A Parquet scan of `xInt64Schema` across `n` partitions. -/
def scanXParts (n : Nat) : LogicalPlan :=
  .source xInt64Schema (.externalInfo parquetInfo) ⟨n, .unknown, []⟩ none []

/-- The physical plan that `scanXParts n` lowers to. -/
def scanXPhys (n : Nat) : PhysicalPlan :=
  .tabularScanParquet xInt64Schema parquetInfo ⟨n, .unknown, []⟩ none []

theorem promoted_numeric (a b : DataType) (ha : a.is_numeric = true)
    (hb : b.is_numeric = true) : (promoted a b).is_numeric = true := by
  revert ha hb; revert a b; decide

theorem promoted_isFloat (a b : DataType) (ha : a.is_numeric = true)
    (hb : b.is_numeric = true) :
    (promoted a b).isFloat = (a.isFloat || b.isFloat) := by
  revert ha hb; revert a b; decide

theorem castVal_of_float_target (dt : DataType) (hf : dt.isFloat = true)
    (v : NumVal) (hnn : v.isNaN = false) :
    castVal dt v = .flt (.fin v.toRat) := by
  cases v with
  | int z => simp [castVal, hf, NumVal.toRat]
  | flt f =>
    cases f with
    | nan => simp [NumVal.isNaN] at hnn
    | fin q => simp [castVal, hf, NumVal.toRat]

theorem castVal_of_int_target (dt : DataType) (hf : dt.isFloat = false)
    (v : NumVal) : castVal dt v = v := by
  simp [castVal, hf]

theorem tagMatches_int (dt : DataType) (v : NumVal) (hf : dt.isFloat = false)
    (ht : tagMatches dt v = true) : ∃ z, v = .int z := by
  cases v with
  | int z => exact ⟨z, rfl⟩
  | flt f => simp [tagMatches, hf] at ht

/-- The central per-slot fact behind the inverted-range behaviour of clip:
whatever the array value `a` (NaN included), when the scalar bounds satisfy
`h < l` (both non-NaN) the slot computed by `min(cast(max(cast a, cast l)), cast h)`
is exactly the cast of `h`. -/
theorem clip_slot (dx dl dh : DataType) (a l h : NumVal)
    (hdx : dx.is_numeric = true) (hdl : dl.is_numeric = true)
    (hdh : dh.is_numeric = true)
    (hta : tagMatches dx a = true) (htl : tagMatches dl l = true)
    (hth : tagMatches dh h = true)
    (hnl : l.isNaN = false) (hnh : h.isNaN = false)
    (hord : h.toRat < l.toRat) :
    kernelMin
      (castVal (promoted (promoted dx dl) dh)
        (kernelMax (castVal (promoted dx dl) a) (castVal (promoted dx dl) l)))
      (castVal (promoted (promoted dx dl) dh) h)
    = castVal (promoted (promoted dx dl) dh) h := by
  have hT1num : (promoted dx dl).is_numeric = true := promoted_numeric dx dl hdx hdl
  have hT2num : (promoted (promoted dx dl) dh).is_numeric = true :=
    promoted_numeric _ dh hT1num hdh
  have hT1f : (promoted dx dl).isFloat = (dx.isFloat || dl.isFloat) :=
    promoted_isFloat dx dl hdx hdl
  have hT2f : (promoted (promoted dx dl) dh).isFloat =
      ((promoted dx dl).isFloat || dh.isFloat) :=
    promoted_isFloat _ dh hT1num hdh
  by_cases h1 : (promoted dx dl).isFloat = true
  · -- float intermediate dtype: the max is a finite float at least `l`,
    -- and the min with the smaller bound `h` returns `h`.
    have h2 : (promoted (promoted dx dl) dh).isFloat = true := by
      rw [hT2f, h1]; rfl
    have hcl : castVal (promoted dx dl) l = .flt (.fin l.toRat) :=
      castVal_of_float_target _ h1 l hnl
    have hch : castVal (promoted (promoted dx dl) dh) h = .flt (.fin h.toRat) :=
      castVal_of_float_target _ h2 h hnh
    rw [hcl, hch]
    rcases hca : castVal (promoted dx dl) a with za | fa
    · -- a float-target cast never produces an integer value
      exfalso
      cases a with
      | int z => simp [castVal, h1] at hca
      | flt f => simp [castVal, h1] at hca
    · cases fa with
      | nan =>
        -- max(NaN, l) = l, then min(l, h) = h since h < l
        simp only [kernelMax, fmax, castVal, h2, kernelMin, fmin, if_true]
        rw [min_comm]
        rw [min_eq_left (le_of_lt hord)]
      | fin ra =>
        -- max(a, l) ≥ l > h, so the min is h
        simp only [kernelMax, fmax, castVal, h2, kernelMin, fmin, if_true]
        rw [min_eq_right (le_of_lt (lt_of_lt_of_le hord (le_max_right ra l.toRat)))]
  · -- integer intermediate dtype: both a and l are integers
    have hdxf : dx.isFloat = false := by
      rw [hT1f] at h1
      rcases Bool.or_eq_false_iff.mp (Bool.not_eq_true _ |>.mp h1) with ⟨h', _⟩
      exact h'
    have hdlf : dl.isFloat = false := by
      rw [hT1f] at h1
      rcases Bool.or_eq_false_iff.mp (Bool.not_eq_true _ |>.mp h1) with ⟨_, h'⟩
      exact h'
    obtain ⟨za, rfl⟩ := tagMatches_int dx a hdxf hta
    obtain ⟨zl, rfl⟩ := tagMatches_int dl l hdlf htl
    have h1' : (promoted dx dl).isFloat = false := Bool.not_eq_true _ |>.mp h1
    rw [castVal_of_int_target _ h1', castVal_of_int_target _ h1']
    have hzl : (NumVal.int zl).toRat = (zl : ℚ) := rfl
    by_cases h2 : (promoted (promoted dx dl) dh).isFloat = true
    · -- the final dtype is float: the integer max is cast to a float
      have hch : castVal (promoted (promoted dx dl) dh) h = .flt (.fin h.toRat) :=
        castVal_of_float_target _ h2 h hnh
      rw [hch]
      simp only [kernelMax, kernelMin, castVal, h2, fmin, if_true]
      have hle : h.toRat ≤ ((Max.max za zl : ℤ) : ℚ) := by
        have : (zl : ℚ) ≤ ((Max.max za zl : ℤ) : ℚ) := by
          exact_mod_cast le_max_right za zl
        exact le_of_lt (lt_of_lt_of_le hord this)
      rw [min_eq_right hle]
    · -- the final dtype is integral: h is an integer as well
      have h2' : (promoted (promoted dx dl) dh).isFloat = false :=
        Bool.not_eq_true _ |>.mp h2
      have hdhf : dh.isFloat = false := by
        rw [hT2f] at h2'
        rcases Bool.or_eq_false_iff.mp h2' with ⟨_, h'⟩
        exact h'
      obtain ⟨zh, rfl⟩ := tagMatches_int dh h hdhf hth
      rw [castVal_of_int_target _ h2', castVal_of_int_target _ h2']
      simp only [kernelMax, kernelMin]
      have hzz : zh < zl := by
        simp only [NumVal.toRat] at hord
        exact_mod_cast hord
      have : zh ≤ Max.max za zl := le_of_lt (lt_of_lt_of_le hzz (le_max_right za zl))
      rw [min_eq_right this]

/-- `Series::binary_min` on numeric, equal-length operands: cast both sides
to the promoted dtype and zip with the slot-lifted min kernel, keeping the
left name. -/
theorem binary_min_ok (s rhs : Series) (hs : s.dtype.is_numeric = true)
    (hr : rhs.dtype.is_numeric = true)
    (hlen : s.values.length = rhs.values.length) :
    s.binary_min rhs = .ok ⟨s.name, promoted s.dtype rhs.dtype,
      List.zipWith (applySlot kernelMin)
        (s.values.map (Option.map (castVal (promoted s.dtype rhs.dtype))))
        (rhs.values.map (Option.map (castVal (promoted s.dtype rhs.dtype))))⟩ := by
  have hnum := promoted_numeric s.dtype rhs.dtype hs hr
  unfold Series.binary_min
  simp only [comparison_op, hs, hr, Bool.and_self, if_true]
  cases hT : promoted s.dtype rhs.dtype <;>
    first
      | (simp [binaryApply, Series.cast, hlen]; done)
      | (rw [hT] at hnum; simp [DataType.is_numeric] at hnum)

/-- `Series::binary_max` on numeric, equal-length operands. -/
theorem binary_max_ok (s rhs : Series) (hs : s.dtype.is_numeric = true)
    (hr : rhs.dtype.is_numeric = true)
    (hlen : s.values.length = rhs.values.length) :
    s.binary_max rhs = .ok ⟨s.name, promoted s.dtype rhs.dtype,
      List.zipWith (applySlot kernelMax)
        (s.values.map (Option.map (castVal (promoted s.dtype rhs.dtype))))
        (rhs.values.map (Option.map (castVal (promoted s.dtype rhs.dtype))))⟩ := by
  have hnum := promoted_numeric s.dtype rhs.dtype hs hr
  unfold Series.binary_max
  simp only [comparison_op, hs, hr, Bool.and_self, if_true]
  cases hT : promoted s.dtype rhs.dtype <;>
    first
      | (simp [binaryApply, Series.cast, hlen]; done)
      | (rw [hT] at hnum; simp [DataType.is_numeric] at hnum)

/-- C8: `Series::clip(x, lo, hi)` is exactly
`binary_min(binary_max(x, lo), hi)` with no validation that `lo ≤ hi`; and
for any numeric series `x` with scalar-wise non-NaN bounds satisfying
`hi < lo`, the clip succeeds and every valid result slot equals the high
bound (cast to the result dtype). -/
theorem clip_composition_inverted_range (x lo hi : Series) (lv hv : NumVal)
    (hwx : x.wfNumeric)
    (hlo : lo.dtype.is_numeric = true) (hhi : hi.dtype.is_numeric = true)
    (htl : tagMatches lo.dtype lv = true) (hth : tagMatches hi.dtype hv = true)
    (hlvals : lo.values = List.replicate x.values.length (some lv))
    (hhvals : hi.values = List.replicate x.values.length (some hv))
    (hnl : lv.isNaN = false) (hnh : hv.isNaN = false)
    (hord : hv.toRat < lv.toRat) :
    (∀ a b c : Series, Series.clip a b c =
      match a.binary_max b with
      | .ok m => m.binary_min c
      | .error e => .error e) ∧
    ∃ res, Series.clip x lo hi = .ok res ∧
      res.dtype = promoted (promoted x.dtype lo.dtype) hi.dtype ∧
      res.values.length = x.values.length ∧
      ∀ (i : Nat) v, res.values[i]? = some (some v) →
        v = castVal (promoted (promoted x.dtype lo.dtype) hi.dtype) hv := by
  obtain ⟨hx, hxvals⟩ := hwx
  refine ⟨fun a b c => rfl, ?_⟩
  have hT1num := promoted_numeric x.dtype lo.dtype hx hlo
  have hlolen : x.values.length = lo.values.length := by
    rw [hlvals, List.length_replicate]
  have hA := binary_max_ok x lo hx hlo hlolen
  rw [hlvals, List.map_replicate] at hA
  simp only [Option.map_some'] at hA
  have hclip : Series.clip x lo hi =
      Series.binary_min
        ⟨x.name, promoted x.dtype lo.dtype,
          List.zipWith (applySlot kernelMax)
            (x.values.map (Option.map (castVal (promoted x.dtype lo.dtype))))
            (List.replicate x.values.length
              (some (castVal (promoted x.dtype lo.dtype) lv)))⟩ hi := by
    unfold Series.clip
    rw [hA]
  have hMlen :
      (List.zipWith (applySlot kernelMax)
        (x.values.map (Option.map (castVal (promoted x.dtype lo.dtype))))
        (List.replicate x.values.length
          (some (castVal (promoted x.dtype lo.dtype) lv)))).length
      = hi.values.length := by
    rw [hhvals]
    simp [List.length_zipWith]
  have hB := binary_min_ok
    ⟨x.name, promoted x.dtype lo.dtype,
      List.zipWith (applySlot kernelMax)
        (x.values.map (Option.map (castVal (promoted x.dtype lo.dtype))))
        (List.replicate x.values.length
          (some (castVal (promoted x.dtype lo.dtype) lv)))⟩ hi hT1num hhi hMlen
  rw [hB] at hclip
  rw [hhvals, List.map_replicate] at hclip
  simp only [Option.map_some'] at hclip
  refine ⟨_, hclip, rfl, ?_, ?_⟩
  · simp [List.length_zipWith]
  · intro i v hv'
    simp only at hv'
    rw [List.getElem?_zipWith_eq_some] at hv'
    obtain ⟨o1, o2, ho1, ho2, happ⟩ := hv'
    rw [List.getElem?_map] at ho1
    obtain ⟨o1', ho1', rfl⟩ := Option.map_eq_some'.mp ho1
    rw [List.getElem?_replicate] at ho2
    by_cases hi' : i < x.values.length
    · rw [if_pos hi'] at ho2
      obtain rfl := Option.some.inj ho2
      cases o1' with
      | none => simp [applySlot] at happ
      | some w' =>
        simp only [Option.map_some', applySlot] at happ
        obtain rfl := Option.some.inj happ
        rw [List.getElem?_zipWith_eq_some] at ho1'
        obtain ⟨p1, p2, hp1, hp2, happ2⟩ := ho1'
        rw [List.getElem?_map] at hp1
        obtain ⟨p1', hp1', rfl⟩ := Option.map_eq_some'.mp hp1
        rw [List.getElem?_replicate] at hp2
        rw [if_pos hi'] at hp2
        obtain rfl := Option.some.inj hp2
        cases p1' with
        | none => simp [applySlot] at happ2
        | some a0 =>
          simp only [Option.map_some', applySlot] at happ2
          obtain rfl := Option.some.inj happ2
          have hmem : (some a0) ∈ x.values := List.getElem?_mem hp1'
          have hta : tagMatches x.dtype a0 = true := by
            have := List.all_eq_true.mp hxvals (some a0) hmem
            simpa using this
          exact clip_slot x.dtype lo.dtype hi.dtype a0 lv hv hx hlo hhi
            hta htl hth hnl hnh hord
    · rw [if_neg hi'] at ho2
      cases ho2

/-- C8 witness: spec scenario 3, `clip(x=[0, 5, null], lo=12, hi=3)` on
Int64 — the inverted range returns the high bound 3 at every valid slot. -/
theorem clip_composition_inverted_range_witness :
    (∀ a b c : Series, Series.clip a b c =
      match a.binary_max b with
      | .ok m => m.binary_min c
      | .error e => .error e) ∧
    ∃ res,
      Series.clip ⟨"x", .int64, [some (.int 0), some (.int 5), none]⟩
        ⟨"lo", .int64, List.replicate 3 (some (.int 12))⟩
        ⟨"hi", .int64, List.replicate 3 (some (.int 3))⟩ = .ok res ∧
      res.dtype = promoted (promoted .int64 .int64) .int64 ∧
      res.values.length = 3 ∧
      ∀ (i : Nat) v, res.values[i]? = some (some v) →
        v = castVal (promoted (promoted .int64 .int64) .int64) (.int 3) := by
  exact clip_composition_inverted_range
    ⟨"x", .int64, [some (.int 0), some (.int 5), none]⟩
    ⟨"lo", .int64, List.replicate 3 (some (.int 12))⟩
    ⟨"hi", .int64, List.replicate 3 (some (.int 3))⟩
    (.int 12) (.int 3)
    (by decide) (by decide) (by decide) (by decide) (by decide)
    rfl rfl (by decide) (by decide) (by decide)

theorem AggExpr.kind_sameKindWith (a : AggExpr) (e : Expr) :
    (a.sameKindWith e).kind = a.kind := by
  cases a <;> rfl

theorem firstStageAggs_cons (a : AggExpr) (t : List AggExpr) (sch : Schema) :
    firstStageAggs (a :: t) sch =
      a.sameKindWith (.alias a.inner (a.semanticId sch)) :: firstStageAggs t sch := by
  cases a <;> rfl

/-- The first-stage list is the aggregation list mapped to the same kind
over the inner expression aliased to the semantic id. -/
theorem firstStageAggs_eq (aggs : List AggExpr) (sch : Schema) :
    firstStageAggs aggs sch =
      aggs.map (fun a => a.sameKindWith (.alias a.inner (a.semanticId sch))) := by
  induction aggs with
  | nil => rfl
  | cons a t ih => rw [firstStageAggs_cons, ih]; rfl

/-- The second-stage list is the positional zip of the aggregation list with
the schema's field names, each entry the same kind over a column reference
to the semantic id, aliased to the schema name. -/
theorem secondStageAggs_eq (aggs : List AggExpr) (sch : Schema) :
    secondStageAggs aggs sch =
      List.zipWith
        (fun a nm => a.sameKindWith (.alias (.column (a.semanticId sch)) nm))
        aggs (sch.fields.map Field.name) := by
  simp only [secondStageAggs]
  generalize sch.fields.map Field.name = names
  induction aggs generalizing names with
  | nil => cases names <;> rfl
  | cons a t ih =>
    cases names with
    | nil => rfl
    | cons nm ns =>
      have := ih ns
      cases a <;> simp_all [List.zipWith, AggExpr.sameKindWith]

theorem secondStageAggs_length (aggs : List AggExpr) (sch : Schema) :
    (secondStageAggs aggs sch).length = Min.min aggs.length sch.fields.length := by
  rw [secondStageAggs_eq]
  simp [List.length_zipWith]

theorem secondStageAggs_kinds (aggs : List AggExpr) (sch : Schema) :
    (secondStageAggs aggs sch).map AggExpr.kind =
      (aggs.map AggExpr.kind).take sch.fields.length := by
  rw [secondStageAggs_eq]
  generalize hn : sch.fields.map Field.name = names
  have hlen : names.length = sch.fields.length := by rw [← hn]; simp
  rw [← hlen]
  clear hn hlen
  induction aggs generalizing names with
  | nil => cases names <;> rfl
  | cons a t ih =>
    cases names with
    | nil => rfl
    | cons nm ns => simp [List.zipWith, AggExpr.kind_sameKindWith, ih ns]

/-- C5: every logical Repartition lowers by scheme: Unknown to
`Split(input.num_partitions, requested)`; Random to
`ReduceMerge(FanoutRandom(requested, input))`; Hash to
`ReduceMerge(FanoutByHash(requested, partition_by, input))`. -/
theorem plan_repartition_lowering (input : LogicalPlan) (ip : PhysicalPlan)
    (n : Nat) (by_ : List Expr) (hip : plan input = .ok ip) :
    plan (.repartition input n by_ .unknown) =
        .ok (.split input.partitionSpec.num_partitions n ip) ∧
    plan (.repartition input n by_ .random) =
        .ok (.reduceMerge (.fanoutRandom n ip)) ∧
    plan (.repartition input n by_ .hash) =
        .ok (.reduceMerge (.fanoutByHash n by_ ip)) := by
  refine ⟨?_, ?_, ?_⟩ <;> simp [plan, hip]

/-- C5 witness: spec scenario 4 — repartition by hash over `col("k")` into 4
partitions around a single-partition Parquet scan. -/
theorem plan_repartition_lowering_witness :
    plan (.repartition (scanXParts 1) 4 [.column "k"] .hash) =
      .ok (.reduceMerge (.fanoutByHash 4 [.column "k"] (scanXPhys 1))) := by
  exact (plan_repartition_lowering (scanXParts 1) (scanXPhys 1) 4 [.column "k"] rfl).2.2

/-- C4 counterexample: at a concrete Range repartition the planner does not
return an error value (`NotImplemented` or otherwise) — the `unreachable!`
macro aborts instead, so the outcome is a panic, neither an `ok` nor an
`err` value. -/
theorem plan_range_counterexample :
    plan (.repartition (scanXParts 2) 4 [] .range) =
        .panicked "Repartitioning by range is not supported" ∧
    (plan (.repartition (scanXParts 2) 4 [] .range)).isErr = false ∧
    (plan (.repartition (scanXParts 2) 4 [] .range)).isOk = false := by
  decide

/-- C4 amended: on a Range repartition or a non-empty group-by aggregation
(with a plannable input) the planner fails fast by panicking — through the
`unreachable!` / `unimplemented!` macros, which abort rather than return —
so no partial plan and no error value reaches the caller. -/
theorem plan_fail_fast_panics (input : LogicalPlan) (ip : PhysicalPlan)
    (n : Nat) (by_ : List Expr) (aggs : List AggExpr) (gb : List Expr)
    (hip : plan input = .ok ip) (hgb : gb ≠ []) :
    plan (.repartition input n by_ .range) =
        .panicked "Repartitioning by range is not supported" ∧
    plan (.aggregate aggs gb input) =
        .panicked "not implemented: aggregation with non-empty group_by" := by
  cases gb with
  | nil => exact absurd rfl hgb
  | cons g t => exact ⟨by simp [plan, hip], by simp [plan, hip]⟩

/-- C4 witness: the amended claim at concrete inputs. -/
theorem plan_fail_fast_panics_witness :
    plan (.repartition (scanXParts 2) 4 [] .range) =
        .panicked "Repartitioning by range is not supported" ∧
    plan (.aggregate [.sum (.column "x")] [.column "x"] (scanXParts 2)) =
        .panicked "not implemented: aggregation with non-empty group_by" := by
  exact plan_fail_fast_panics (scanXParts 2) (scanXPhys 2) 4 []
    [.sum (.column "x")] [.column "x"] rfl (by decide)

/-- C6: a Distinct node lowers to a partial all-columns group-by aggregate;
with more than one partition the partial aggregate is shuffled by the
columns through a paired `FanoutByHash`/`ReduceMerge` and re-aggregated,
otherwise the partial aggregate alone is the result. -/
theorem plan_distinct_lowering (input : LogicalPlan) (ip : PhysicalPlan)
    (hip : plan input = .ok ip) :
    ((LogicalPlan.distinct input).partitionSpec.num_partitions > 1 →
      plan (.distinct input) =
        .ok (.aggregate
          (.reduceMerge
            (.fanoutByHash (LogicalPlan.distinct input).partitionSpec.num_partitions
              (input.schema.fields.map (fun f => Expr.column f.name))
              (.aggregate ip [] (input.schema.fields.map (fun f => Expr.column f.name)))))
          [] (input.schema.fields.map (fun f => Expr.column f.name)))) ∧
    (¬(LogicalPlan.distinct input).partitionSpec.num_partitions > 1 →
      plan (.distinct input) =
        .ok (.aggregate ip [] (input.schema.fields.map (fun f => Expr.column f.name)))) := by
  simp only [LogicalPlan.partitionSpec]
  constructor <;> intro h <;> simp [plan, hip, h]

/-- C6 witness: spec scenario 5 — distinct over a 4-partition scan produces
the two-stage shuffle form. -/
theorem plan_distinct_lowering_witness :
    plan (.distinct (scanXParts 4)) =
      .ok (.aggregate
        (.reduceMerge (.fanoutByHash 4 [.column "x"] (.aggregate (scanXPhys 4) [] [.column "x"])))
        [] [.column "x"]) := by
  exact (plan_distinct_lowering (scanXParts 4) (scanXPhys 4) rfl).1 (by decide)

/-- C2: a global (empty group-by) Aggregate lowers to a single physical
Aggregate when its partition spec has one partition, and otherwise to
`Aggregate(Coalesce(Aggregate(input, first_aggs, []), n, 1), second_aggs, [])`
where each first-stage aggregation is the same kind over the original inner
expression aliased to the aggregation's semantic id over the logical
schema, and each second-stage aggregation is the same kind over a column
reference to that semantic id, aliased back to the name drawn positionally
from the logical plan's schema. -/
theorem plan_global_agg_lowering (input : LogicalPlan) (ip : PhysicalPlan)
    (aggs : List AggExpr) (hip : plan input = .ok ip) :
    ((LogicalPlan.aggregate aggs [] input).partitionSpec.num_partitions = 1 →
      plan (.aggregate aggs [] input) = .ok (.aggregate ip aggs [])) ∧
    ((LogicalPlan.aggregate aggs [] input).partitionSpec.num_partitions ≠ 1 →
      plan (.aggregate aggs [] input) =
        .ok (.aggregate
          (.coalesce
            (.aggregate ip
              (aggs.map (fun a =>
                a.sameKindWith
                  (.alias a.inner
                    (a.semanticId (LogicalPlan.aggregate aggs [] input).schema))))
              [])
            (LogicalPlan.aggregate aggs [] input).partitionSpec.num_partitions 1)
          (List.zipWith
            (fun a nm =>
              a.sameKindWith
                (.alias
                  (.column (a.semanticId (LogicalPlan.aggregate aggs [] input).schema)) nm))
            aggs ((LogicalPlan.aggregate aggs [] input).schema.fields.map Field.name))
          [])) := by
  simp only [LogicalPlan.partitionSpec, LogicalPlan.schema]
  constructor <;> intro h
  · simp [plan, hip, h]
  · rcases hn : input.partitionSpec.num_partitions with _ | k
    · simp [plan, hip, hn, firstStageAggs_eq, secondStageAggs_eq]
    · cases k with
      | zero => exact absurd hn h
      | succ m => simp [plan, hip, hn, firstStageAggs_eq, secondStageAggs_eq]

/-- C2 witness: spec scenario 6 — global sum over a 3-partition scan yields
the two-stage plan with the semantic id as the intermediate column name and
the schema name `x` restored in the second stage. -/
theorem plan_global_agg_lowering_witness :
    plan (.aggregate [.sum (.column "x")] [] (scanXParts 3)) =
      .ok (.aggregate
        (.coalesce
          (.aggregate (scanXPhys 3)
            [.sum (.alias (.column "x") "local_sum(col(x))")] [])
          3 1)
        [.sum (.alias (.column "local_sum(col(x))") "x")] []) := by
  have h := (plan_global_agg_lowering (scanXParts 3) (scanXPhys 3)
    [.sum (.column "x")] rfl).2 (by decide)
  simpa using h

/-- C10: in the multi-partition global-aggregation lowering the second
stage is a positional zip with the logical schema's field names: its length
is the minimum of the aggregation count and the schema's field count, its
kinds are the prefix of the aggregation kinds of that length, and trailing
aggregations beyond the schema's field count are silently dropped rather
than rejected. -/
theorem plan_second_stage_zip_drop (input : LogicalPlan) (ip : PhysicalPlan)
    (aggs : List AggExpr) (hip : plan input = .ok ip)
    (hn : (LogicalPlan.aggregate aggs [] input).partitionSpec.num_partitions ≠ 1) :
    (∃ inner,
      plan (.aggregate aggs [] input) =
        .ok (.aggregate inner (secondStageAggs aggs (aggSchema aggs)) [])) ∧
    (secondStageAggs aggs (aggSchema aggs)).length =
      Min.min aggs.length (LogicalPlan.aggregate aggs [] input).schema.fields.length ∧
    (secondStageAggs aggs (aggSchema aggs)).map AggExpr.kind =
      (aggs.map AggExpr.kind).take
        (LogicalPlan.aggregate aggs [] input).schema.fields.length := by
  simp only [LogicalPlan.partitionSpec] at hn
  simp only [LogicalPlan.schema]
  have hplan : plan (.aggregate aggs [] input) =
      .ok (.aggregate
        (.coalesce (.aggregate ip (firstStageAggs aggs (aggSchema aggs)) [])
          input.partitionSpec.num_partitions 1)
        (secondStageAggs aggs (aggSchema aggs)) []) := by
    rcases hnum : input.partitionSpec.num_partitions with _ | k
    · simp [plan, hip, hnum]
    · cases k with
      | zero => exact absurd hnum hn
      | succ m => simp [plan, hip, hnum]
  exact ⟨⟨_, hplan⟩, secondStageAggs_length aggs (aggSchema aggs),
    secondStageAggs_kinds aggs (aggSchema aggs)⟩

/-- C10 witness: two global aggregations whose output fields share the name
`x` give a one-field schema, so only the first aggregation survives into
the second stage. -/
theorem plan_second_stage_zip_drop_witness :
    (∃ inner,
      plan (.aggregate [.sum (.column "x"), .count (.column "x")] [] (scanXParts 3)) =
        .ok (.aggregate inner
          (secondStageAggs [.sum (.column "x"), .count (.column "x")]
            (aggSchema [.sum (.column "x"), .count (.column "x")])) [])) ∧
    (secondStageAggs [.sum (.column "x"), .count (.column "x")]
        (aggSchema [.sum (.column "x"), .count (.column "x")])).length = 1 ∧
    (secondStageAggs [.sum (.column "x"), .count (.column "x")]
        (aggSchema [.sum (.column "x"), .count (.column "x")])).map AggExpr.kind =
      [.sum] := by
  have h := plan_second_stage_zip_drop (scanXParts 3) (scanXPhys 3)
    [.sum (.column "x"), .count (.column "x")] rfl (by decide)
  exact ⟨h.1, by decide, by decide⟩

/-- C3 (code bug): for a multi-partition global `Count` (resp. `Mean`) the
planner silently emits a same-kind second stage — `Count` over the
per-partition counts (resp. `Mean` over the per-partition means) — instead
of rejecting the plan or folding the partials with `Sum` (resp. a
`Sum`/`Count` decomposition). -/
theorem plan_count_mean_same_kind_second_stage :
    plan (.aggregate [.count (.column "x")] [] (scanXParts 3)) =
      .ok (.aggregate
        (.coalesce
          (.aggregate (scanXPhys 3)
            [.count (.alias (.column "x") "local_count(col(x))")] [])
          3 1)
        [.count (.alias (.column "local_count(col(x))") "x")] []) ∧
    plan (.aggregate [.mean (.column "x")] [] (scanXParts 3)) =
      .ok (.aggregate
        (.coalesce
          (.aggregate (scanXPhys 3)
            [.mean (.alias (.column "x") "local_mean(col(x))")] [])
          3 1)
        [.mean (.alias (.column "local_mean(col(x))") "x")] []) := by
  decide

/-- C7: in every physical plan the planner returns successfully, every
`FanoutRandom` and `FanoutByHash` node is the immediate child of a
`ReduceMerge` node — no fanout is ever emitted unpaired. -/
theorem plan_fanouts_paired (L : LogicalPlan) (p : PhysicalPlan)
    (h : plan L = .ok p) : fanoutsPaired p = true := by
  induction L generalizing p with
  | source sch si ps lim fil =>
    rcases si with ⟨⟨ffc⟩⟩ | mem
    · cases ffc <;> obtain rfl := PlanResult.ok.inj h <;> rfl
    · obtain rfl := PlanResult.ok.inj h; rfl
  | filter input pred ih =>
    cases hi : plan input with
    | ok ip =>
      simp only [plan, hi] at h
      obtain rfl := PlanResult.ok.inj h
      exact ih ip hi
    | err e => simp only [plan, hi] at h; cases h
    | panicked m => simp only [plan, hi] at h; cases h
  | limit input n ih =>
    cases hi : plan input with
    | ok ip =>
      simp only [plan, hi] at h
      obtain rfl := PlanResult.ok.inj h
      exact ih ip hi
    | err e => simp only [plan, hi] at h; cases h
    | panicked m => simp only [plan, hi] at h; cases h
  | sort input sortBy desc ih =>
    cases hi : plan input with
    | ok ip =>
      simp only [plan, hi] at h
      obtain rfl := PlanResult.ok.inj h
      exact ih ip hi
    | err e => simp only [plan, hi] at h; cases h
    | panicked m => simp only [plan, hi] at h; cases h
  | repartition input n by_ scheme ih =>
    cases hi : plan input with
    | ok ip =>
      cases scheme <;> simp only [plan, hi] at h
      · obtain rfl := PlanResult.ok.inj h; exact ih ip hi
      · obtain rfl := PlanResult.ok.inj h
        simp only [fanoutsPaired]; exact ih ip hi
      · obtain rfl := PlanResult.ok.inj h
        simp only [fanoutsPaired]; exact ih ip hi
      · cases h
    | err e => simp only [plan, hi] at h; cases h
    | panicked m => simp only [plan, hi] at h; cases h
  | distinct input ih =>
    cases hi : plan input with
    | ok ip =>
      simp only [plan, hi] at h
      by_cases hc : input.partitionSpec.num_partitions > 1
      · rw [if_pos hc] at h
        obtain rfl := PlanResult.ok.inj h
        simp only [fanoutsPaired]; exact ih ip hi
      · rw [if_neg hc] at h
        obtain rfl := PlanResult.ok.inj h
        exact ih ip hi
    | err e => simp only [plan, hi] at h; cases h
    | panicked m => simp only [plan, hi] at h; cases h
  | aggregate aggs gb input ih =>
    cases hi : plan input with
    | ok ip =>
      cases gb with
      | cons g t => simp only [plan, hi, List.isEmpty_cons, if_false] at h; cases h
      | nil =>
        simp only [plan, hi, List.isEmpty_nil, if_true] at h
        cases hn : input.partitionSpec.num_partitions with
        | zero =>
          rw [hn] at h
          obtain rfl := PlanResult.ok.inj h
          simp only [fanoutsPaired]; exact ih ip hi
        | succ k =>
          cases k with
          | zero =>
            rw [hn] at h
            obtain rfl := PlanResult.ok.inj h
            exact ih ip hi
          | succ m =>
            rw [hn] at h
            obtain rfl := PlanResult.ok.inj h
            simp only [fanoutsPaired]; exact ih ip hi
    | err e => simp only [plan, hi] at h; cases h
    | panicked m => simp only [plan, hi] at h; cases h

/-- C7 witness: the pairing invariant at the concrete hash-repartition
plan. -/
theorem plan_fanouts_paired_witness :
    fanoutsPaired (.reduceMerge (.fanoutByHash 4 [.column "k"] (scanXPhys 1))) = true := by
  exact plan_fanouts_paired (.repartition (scanXParts 1) 4 [.column "k"] .hash)
    (.reduceMerge (.fanoutByHash 4 [.column "k"] (scanXPhys 1))) (by decide)

/-- C1 counterexample: the float `DataArray::min` kernel is not
NaN-propagating — at a slot where the left input is NaN and the right is 2.0
the result is 2.0, not NaN (Rust `f32::min`/`f64::min` ignore a single NaN
operand); dually for `max`. -/
theorem float_min_nan_counterexample :
    DataArrayF32.min [some .nan] [some (.fin 2)] = .ok [some (.fin 2)] ∧
    DataArrayF64.min [some .nan] [some (.fin 2)] = .ok [some (.fin 2)] ∧
    DataArrayF32.max [some (.fin 1)] [some .nan] = .ok [some (.fin 1)] ∧
    DataArrayF64.max [some (.fin 1)] [some .nan] = .ok [some (.fin 1)] ∧
    FloatVal.fin 2 ≠ FloatVal.nan ∧ FloatVal.fin 1 ≠ FloatVal.nan := by
  refine ⟨rfl, rfl, rfl, rfl, by decide, by decide⟩

/-- C1 amended: the float `DataArray::min`/`max` kernels follow the
IEEE-754 minNum/maxNum semantics of Rust `f32::min`/`f64::min`: at a slot
where both inputs are valid the result is valid and equals
`fmin`/`fmax` of the operands, which is NaN iff both operands are NaN; a
single NaN operand is ignored and the other operand returned. -/
theorem float_minmax_nan_semantics (l r : List (Option FloatVal)) (i : Nat)
    (a b : FloatVal) (hlen : l.length = r.length)
    (ha : l[i]? = some (some a)) (hb : r[i]? = some (some b)) :
    (∃ res, DataArrayF32.min l r = .ok res ∧ DataArrayF64.min l r = .ok res ∧
      res[i]? = some (some (fmin a b))) ∧
    (∃ res, DataArrayF32.max l r = .ok res ∧ DataArrayF64.max l r = .ok res ∧
      res[i]? = some (some (fmax a b))) ∧
    (fmin a b = .nan ↔ a = .nan ∧ b = .nan) ∧
    (fmax a b = .nan ↔ a = .nan ∧ b = .nan) ∧
    (a = .nan → fmin a b = b ∧ fmax a b = b) ∧
    (b = .nan → fmin a b = a ∧ fmax a b = a) := by
  have hmin : DataArrayF32.min l r = .ok (List.zipWith (applySlot fmin) l r) := by
    simp [DataArrayF32.min, binaryApply, hlen]
  have hmax : DataArrayF32.max l r = .ok (List.zipWith (applySlot fmax) l r) := by
    simp [DataArrayF32.max, binaryApply, hlen]
  refine ⟨⟨_, hmin, hmin, ?_⟩, ⟨_, hmax, hmax, ?_⟩, ?_, ?_, ?_, ?_⟩
  · exact (List.getElem?_zipWith_eq_some ..).2 ⟨some a, some b, ha, hb, rfl⟩
  · exact (List.getElem?_zipWith_eq_some ..).2 ⟨some a, some b, ha, hb, rfl⟩
  · cases a <;> cases b <;> simp [fmin]
  · cases a <;> cases b <;> simp [fmax]
  · rintro rfl; cases b <;> simp [fmin, fmax]
  · rintro rfl; cases a <;> simp [fmin, fmax]

/-- C1 witness: the amended semantics at spec scenario 2,
`min([1.0, NaN, 3.0], [2.0, 2.0, NaN])`, slot 1 (NaN on the left, 2.0 on
the right, giving 2.0). -/
theorem float_minmax_nan_semantics_witness :
    (∃ res,
      DataArrayF32.min [some (.fin 1), some .nan, some (.fin 3)]
          [some (.fin 2), some (.fin 2), some .nan] = .ok res ∧
      DataArrayF64.min [some (.fin 1), some .nan, some (.fin 3)]
          [some (.fin 2), some (.fin 2), some .nan] = .ok res ∧
      res[1]? = some (some (fmin .nan (.fin 2)))) ∧
    (∃ res,
      DataArrayF32.max [some (.fin 1), some .nan, some (.fin 3)]
          [some (.fin 2), some (.fin 2), some .nan] = .ok res ∧
      DataArrayF64.max [some (.fin 1), some .nan, some (.fin 3)]
          [some (.fin 2), some (.fin 2), some .nan] = .ok res ∧
      res[1]? = some (some (fmax .nan (.fin 2)))) ∧
    (fmin .nan (.fin 2) = .nan ↔ FloatVal.nan = .nan ∧ FloatVal.fin 2 = .nan) ∧
    (fmax .nan (.fin 2) = .nan ↔ FloatVal.nan = .nan ∧ FloatVal.fin 2 = .nan) ∧
    (FloatVal.nan = .nan → fmin .nan (.fin 2) = .fin 2 ∧ fmax .nan (.fin 2) = .fin 2) ∧
    (FloatVal.fin 2 = .nan → fmin .nan (.fin 2) = .nan ∧ fmax .nan (.fin 2) = .nan) := by
  exact float_minmax_nan_semantics
    [some (.fin 1), some .nan, some (.fin 3)]
    [some (.fin 2), some (.fin 2), some .nan] 1 .nan (.fin 2) rfl rfl rfl

/-- C9: for `binary_min`, `binary_max` (arity 2) and `clip` (arity 3):
`to_field` on a wrong-arity input list is a schema-mismatch error and
`evaluate` is a value error; on an arity-correct list whose resolved inputs
include a non-numeric dtype, `to_field` is a type error. -/
theorem scalar_fn_arity_dtype_errors (es : List Expr) (ss : List Series) (sch : Schema) :
    (es.length ≠ 2 →
      BinaryMin.to_field es sch =
        .error (.schemaMismatch ("Expected 2 input arguments for 'binary_min', got "
          ++ toString es.length)) ∧
      BinaryMax.to_field es sch =
        .error (.schemaMismatch ("Expected 2 input arguments for 'binary_max', got "
          ++ toString es.length))) ∧
    (es.length ≠ 3 →
      Clip.to_field es sch =
        .error (.schemaMismatch ("Expected 3 input arguments (array, min, max), got "
          ++ toString es.length))) ∧
    (ss.length ≠ 2 →
      BinaryMin.evaluate ss =
        .error (.valueError ("Expected 2 input arguments for 'binary_min', got "
          ++ toString ss.length)) ∧
      BinaryMax.evaluate ss =
        .error (.valueError ("Expected 2 input arguments for 'binary_max', got "
          ++ toString ss.length))) ∧
    (ss.length ≠ 3 →
      Clip.evaluate ss =
        .error (.valueError ("Expected 3 input arguments (array, min, max), got "
          ++ toString ss.length))) ∧
    (∀ e1 e2 f1 f2, es = [e1, e2] →
      e1.to_field sch = .ok f1 → e2.to_field sch = .ok f2 →
      (f1.dtype.is_numeric = false ∨ f2.dtype.is_numeric = false) →
      BinaryMin.to_field es sch =
        .error (.typeError ("All inputs to 'binary_min' must be numeric types, got "
          ++ f1.dtype.fmt ++ " and " ++ f2.dtype.fmt)) ∧
      BinaryMax.to_field es sch =
        .error (.typeError ("All inputs to 'binary_max' must be numeric types, got "
          ++ f1.dtype.fmt ++ " and " ++ f2.dtype.fmt))) ∧
    (∀ e1 e2 e3 f1 f2 f3, es = [e1, e2, e3] →
      e1.to_field sch = .ok f1 → e2.to_field sch = .ok f2 → e3.to_field sch = .ok f3 →
      (f1.dtype.is_numeric = false ∨ f2.dtype.is_numeric = false ∨
        f3.dtype.is_numeric = false) →
      Clip.to_field es sch =
        .error (.typeError ("All inputs to 'clip' must be numeric types, got "
          ++ f1.dtype.fmt ++ ", " ++ f2.dtype.fmt ++ ", " ++ f3.dtype.fmt))) := by
  refine ⟨?_, ?_, ?_, ?_, ?_, ?_⟩
  · intro h
    rcases es with _ | ⟨a, _ | ⟨b, _ | ⟨c, t⟩⟩⟩
    · exact ⟨rfl, rfl⟩
    · exact ⟨rfl, rfl⟩
    · exact absurd rfl h
    · exact ⟨rfl, rfl⟩
  · intro h
    rcases es with _ | ⟨a, _ | ⟨b, _ | ⟨c, _ | ⟨d, t⟩⟩⟩⟩
    · exact rfl
    · exact rfl
    · exact rfl
    · exact absurd rfl h
    · exact rfl
  · intro h
    rcases ss with _ | ⟨a, _ | ⟨b, _ | ⟨c, t⟩⟩⟩
    · exact ⟨rfl, rfl⟩
    · exact ⟨rfl, rfl⟩
    · exact absurd rfl h
    · exact ⟨rfl, rfl⟩
  · intro h
    rcases ss with _ | ⟨a, _ | ⟨b, _ | ⟨c, _ | ⟨d, t⟩⟩⟩⟩
    · exact rfl
    · exact rfl
    · exact rfl
    · exact absurd rfl h
    · exact rfl
  · rintro e1 e2 f1 f2 rfl h1 h2 hnn
    constructor <;> rcases hnn with h | h <;>
      simp [BinaryMin.to_field, BinaryMax.to_field, h1, h2, h]
  · rintro e1 e2 e3 f1 f2 f3 rfl h1 h2 h3 hnn
    rcases hnn with h | h | h <;>
      simp [Clip.to_field, h1, h2, h3, h]

/-- C9 witness: the error behaviour at concrete inputs — a 1-expression
list against each arity check, an empty series list against each runtime
arity check, and boolean-typed columns against the numeric dtype checks. -/
theorem scalar_fn_arity_dtype_errors_witness :
    BinaryMin.to_field [.column "a"] ⟨[⟨"a", .boolean⟩, ⟨"n", .int32⟩]⟩ =
      .error (.schemaMismatch ("Expected 2 input arguments for 'binary_min', got "
        ++ toString (List.length ([.column "a"] : List Expr)))) ∧
    BinaryMax.to_field [.column "a"] ⟨[⟨"a", .boolean⟩, ⟨"n", .int32⟩]⟩ =
      .error (.schemaMismatch ("Expected 2 input arguments for 'binary_max', got "
        ++ toString (List.length ([.column "a"] : List Expr)))) ∧
    Clip.to_field [.column "a"] ⟨[⟨"a", .boolean⟩, ⟨"n", .int32⟩]⟩ =
      .error (.schemaMismatch ("Expected 3 input arguments (array, min, max), got "
        ++ toString (List.length ([.column "a"] : List Expr)))) ∧
    BinaryMin.evaluate [] =
      .error (.valueError ("Expected 2 input arguments for 'binary_min', got "
        ++ toString (List.length ([] : List Series)))) ∧
    BinaryMax.evaluate [] =
      .error (.valueError ("Expected 2 input arguments for 'binary_max', got "
        ++ toString (List.length ([] : List Series)))) ∧
    Clip.evaluate [] =
      .error (.valueError ("Expected 3 input arguments (array, min, max), got "
        ++ toString (List.length ([] : List Series)))) ∧
    BinaryMin.to_field [.column "a", .column "n"] ⟨[⟨"a", .boolean⟩, ⟨"n", .int32⟩]⟩ =
      .error (.typeError ("All inputs to 'binary_min' must be numeric types, got "
        ++ DataType.boolean.fmt ++ " and " ++ DataType.int32.fmt)) ∧
    BinaryMax.to_field [.column "a", .column "n"] ⟨[⟨"a", .boolean⟩, ⟨"n", .int32⟩]⟩ =
      .error (.typeError ("All inputs to 'binary_max' must be numeric types, got "
        ++ DataType.boolean.fmt ++ " and " ++ DataType.int32.fmt)) ∧
    Clip.to_field [.column "n", .column "n", .column "a"] ⟨[⟨"a", .boolean⟩, ⟨"n", .int32⟩]⟩ =
      .error (.typeError ("All inputs to 'clip' must be numeric types, got "
        ++ DataType.int32.fmt ++ ", " ++ DataType.int32.fmt ++ ", " ++ DataType.boolean.fmt)) := by
  have h1 := scalar_fn_arity_dtype_errors [.column "a"] []
    ⟨[⟨"a", .boolean⟩, ⟨"n", .int32⟩]⟩
  have h2 := scalar_fn_arity_dtype_errors [.column "a", .column "n"] []
    ⟨[⟨"a", .boolean⟩, ⟨"n", .int32⟩]⟩
  have h3 := scalar_fn_arity_dtype_errors [.column "n", .column "n", .column "a"] []
    ⟨[⟨"a", .boolean⟩, ⟨"n", .int32⟩]⟩
  obtain ⟨ha1, ha2⟩ := h1.1 (by decide)
  have hb := h1.2.1 (by decide)
  obtain ⟨hc1, hc2⟩ := h1.2.2.1 (by decide)
  have hd := h1.2.2.2.1 (by decide)
  obtain ⟨he1, he2⟩ := h2.2.2.2.2.1 (.column "a") (.column "n")
    ⟨"a", .boolean⟩ ⟨"n", .int32⟩ rfl rfl rfl (Or.inl rfl)
  have hf := h3.2.2.2.2.2 (.column "n") (.column "n") (.column "a")
    ⟨"n", .int32⟩ ⟨"n", .int32⟩ ⟨"a", .boolean⟩ rfl rfl rfl rfl
    (Or.inr (Or.inr rfl))
  exact ⟨ha1, ha2, hb, hc1, hc2, hd, he1, he2, hf⟩

end Daft
